import Mathlib

/-!
# Verification of the rolling empirical-distribution spike classifier

Shallow embedding of `src/statistical/identify_spikes.py` (the statistical
spike-detection core).  Machine floats are idealised as rationals `ℚ`; a
float `NaN` (a missing `raw`/`accepted` value, or a non-finite intermediate
result such as the output of `interp1d` outside its domain) is modelled as
`Option.none`.  The module-level constants of the script
(`interval`, `min_entries`, `nbins`, `cdf_limits`, `buffer`) are collected in
a `Config` record, `defaultConfig` holding the script's values.
-/

set_option linter.unusedVariables false

-- Batteries marks the rational field operations `@[irreducible]`; restore
-- reducibility so that closed facts about concrete runs can be settled by
-- `decide` (the kernel unfolds them regardless).
attribute [local semireducible] Rat.add Rat.mul Rat.sub Rat.inv

namespace IdentifySpikes

/-- One row of the tidied data frame (lines 470-475): `raw` is the observed
water level, `accepted` the QC-ed reference.  `none` models `NaN`. -/
structure Sample where
  raw : Option ℚ
  accepted : Option ℚ

/-- The module-level constants of `identify_spikes.py` (lines 38-57). -/
structure Config where
  interval : ℕ
  min_entries : ℕ
  nbins : ℕ
  p_low : ℚ
  p_high : ℚ
  buffer : ℚ

/-- The values in the source: `interval = int(1*24*60/6) = 240`,
`min_entries = 100`, `nbins = 80`, `cdf_limits = (0.00023, 0.99977)`,
`buffer = 0.15`. -/
def defaultConfig : Config :=
  { interval := 240, min_entries := 100, nbins := 80,
    p_low := 23 / 100000, p_high := 99977 / 100000, buffer := 15 / 100 }

/-- `delta = accepted - raw` (line 474); `NaN` propagates. -/
def delta (s : Sample) : Option ℚ :=
  match s.accepted, s.raw with
  | some a, some r => some (a - r)
  | _, _ => none

/-- `true_is_spike = abs(delta) > buffer` (line 475).  A comparison against
`NaN` is false, so a missing delta yields `false`. -/
def true_is_spike (buf : ℚ) (s : Sample) : Bool :=
  match delta s with
  | some d => decide (buf < |d|)
  | none => false

/-- `numpy.round` to the nearest integer, ties to even (banker's rounding). -/
def rne (x : ℚ) : ℤ :=
  if x - ⌊x⌋ < 1 / 2 then ⌊x⌋
  else if 1 / 2 < x - ⌊x⌋ then ⌊x⌋ + 1
  else if 2 ∣ ⌊x⌋ then ⌊x⌋ else ⌊x⌋ + 1

/-- `numpy.round (x, 3)` (line 289). -/
def round3 (x : ℚ) : ℚ := (rne (1000 * x) : ℚ) / 1000

/-- The outer histogram edges chosen by `numpy.histogram(values, bins=n)`:
`(0, 1)` for empty data, `(min - 1/2, min + 1/2)` when all values coincide,
otherwise `(min, max)`. -/
def outerEdges (vs : List ℚ) : ℚ × ℚ :=
  match vs with
  | [] => (0, 1)
  | v :: rest =>
    let lo := rest.foldl min v
    let hi := rest.foldl max v
    if lo = hi then (lo - 1 / 2, lo + 1 / 2) else (lo, hi)

/-- `bincenter = edges[:-1] + (edges[1:] - edges[:-1])/2` (line 277): the
center of bin `k` of `n` equal-width bins on `[lo, hi]`. -/
def bincenter (lo hi : ℚ) (n k : ℕ) : ℚ := lo + (hi - lo) * (2 * k + 1) / (2 * n)

/-- The bin `numpy.histogram` assigns a value `v ∈ [lo, hi]` to: half-open
bins, except that the last bin is closed. -/
def binIndex (lo hi : ℚ) (n : ℕ) (v : ℚ) : ℕ :=
  min (⌊(v - lo) * n / (hi - lo)⌋).toNat (n - 1)

/-- Cumulative bin count: the number of values falling in bins `0..j`; this
is `numpy.cumsum (hist)[j]`. -/
def cumcount (vs : List ℚ) (n j : ℕ) : ℕ :=
  vs.countP (fun v => binIndex (outerEdges vs).1 (outerEdges vs).2 n v ≤ j)

/-- `cdf = numpy.cumsum (hist/numpy.sum(hist))` (line 278), sampled at bin
`j`.  Meaningful only when `vs` is non-empty (otherwise the source divides
by zero and produces `NaN`; `icdfQ` guards that case). -/
def cdfQ (vs : List ℚ) (n j : ℕ) : ℚ := (cumcount vs n j : ℚ) / (vs.length : ℚ)

/-- `icdf = interp1d (cdf, bincenter, bounds_error=False)` applied to `p`
(lines 282-284).  `none` models a `NaN` result: the all-`NaN` cdf of an
empty value list, a target outside `[cdf[0], cdf[-1]]` (the `fill_value`),
or a zero-width interpolation segment (0/0).  Otherwise `interp1d` picks the
segment via `searchsorted` clipped to `[1, n-1]` and interpolates linearly. -/
def icdfQ (n : ℕ) (vs : List ℚ) (p : ℚ) : Option ℚ :=
  let lo := (outerEdges vs).1
  let hi := (outerEdges vs).2
  if vs.length = 0 then none
  else if p < cdfQ vs n 0 ∨ cdfQ vs n (n - 1) < p then none
  else
    let idx := (List.range n).countP (fun j => cdfQ vs n j < p)
    let jj := min (max idx 1) (n - 1)
    let xlo := cdfQ vs n (jj - 1)
    let xhi := cdfQ vs n jj
    if xhi = xlo then none
    else some (bincenter lo hi n (jj - 1)
      + (p - xlo) * (bincenter lo hi n jj - bincenter lo hi n (jj - 1)) / (xhi - xlo))

/-- The raw values `build_histogram` keeps (lines 269-271): finite, and not
previously flagged — the spike mask is only applied when non-empty.  At
every call site the two lists have equal length (the source would raise a
shape error otherwise). -/
def filteredValues (raws : List (Option ℚ)) (previous_spikes : List Bool) : List ℚ :=
  if 0 < previous_spikes.length then
    (raws.zip previous_spikes).filterMap (fun rp => if rp.2 then none else rp.1)
  else
    raws.filterMap id

/-- `build_histogram` (lines 246-295), restricted to its returned value
`[lower, upper]` (the plotting side calls do not affect it).  A non-finite
interpolation result is replaced by the min/max bin center (lines 286-287;
with `lo < hi` the centers are strictly increasing, so these are bins `0`
and `n-1`), then both bounds are rounded to 3 digits and expanded by the
buffer (line 289). -/
def build_histogram (cfg : Config) (raws : List (Option ℚ))
    (previous_spikes : List Bool) : ℚ × ℚ :=
  let vs := filteredValues raws previous_spikes
  let lo := (outerEdges vs).1
  let hi := (outerEdges vs).2
  let n := cfg.nbins
  let lower := (icdfQ n vs cfg.p_low).getD (bincenter lo hi n 0)
  let upper := (icdfQ n vs cfg.p_high).getD (bincenter lo hi n (n - 1))
  (round3 lower - cfg.buffer, round3 upper + cfg.buffer)

/-- The raw values of the window `data.iloc[max(0,i-interval) : max(0,i-1)]`
(lines 491-493; `ℕ`-subtraction is the clamp at 0, and the Python slice
excludes its end index). -/
def windowRaws (cfg : Config) (data : List Sample) (i : ℕ) : List (Option ℚ) :=
  ((data.drop (i - cfg.interval)).take ((i - 1) - (i - cfg.interval))).map Sample.raw

/-- The slice `are_spikes[begin_index:end_index]` of the label array
(line 503). -/
def windowPrev (cfg : Config) (labels : List Bool) (i : ℕ) : List Bool :=
  (labels.drop (i - cfg.interval)).take ((i - 1) - (i - cfg.interval))

/-- `nValid = len (subdata.raw[numpy.isfinite (subdata.raw)])` (line 495). -/
def nValid (cfg : Config) (data : List Sample) (i : ℕ) : ℕ :=
  (windowRaws cfg data i).countP Option.isSome

/-- The confidence interval computed for index `i` against label state
`labels` (line 506). -/
def intervalAt (cfg : Config) (data : List Sample) (labels : List Bool) (i : ℕ) : ℚ × ℚ :=
  build_histogram cfg (windowRaws cfg data i) (windowPrev cfg labels i)

/-- The label written at an evaluated index (lines 508-511): `False` for a
`NaN` candidate, else `raw < lower or raw > upper`. -/
def classifyAt (cfg : Config) (data : List Sample) (labels : List Bool) (i : ℕ) : Bool :=
  match data[i]? with
  | none => false
  | some point =>
    match point.raw with
    | none => false
    | some r =>
      decide (r < (intervalAt cfg data labels i).1 ∨ (intervalAt cfg data labels i).2 < r)

/-- One iteration of the scan loop (lines 487-511): warm-up skip,
insufficient-data skip, or evaluate-and-write. -/
def scanStep (cfg : Config) (data : List Sample) (labels : List Bool) (i : ℕ) : List Bool :=
  if i < cfg.min_entries then labels
  else if nValid cfg data i < cfg.min_entries - 1 then labels
  else labels.set i (classifyAt cfg data labels i)

/-- The label array after the first `k` iterations, starting from
`are_spikes = [False] * len(data)` (line 484). -/
def scanUpto (cfg : Config) (data : List Sample) (k : ℕ) : List Bool :=
  (List.range k).foldl (scanStep cfg data) (List.replicate data.length false)

/-- The full scan: the final `are_spikes` / `pred_is_spike` array
(lines 484-530). -/
def scan (cfg : Config) (data : List Sample) : List Bool :=
  scanUpto cfg data data.length

/-- Index `i` is evaluated: past warm-up and not skipped for insufficient
valid data.  (Both guards depend only on `data`, not on the labels.) -/
def isEvaluated (cfg : Config) (data : List Sample) (i : ℕ) : Bool :=
  decide (cfg.min_entries ≤ i) && !decide (nValid cfg data i < cfg.min_entries - 1)

/-- The number of evaluated (non-warm-up, non-skipped) indices. -/
def evaluatedCount (cfg : Config) (data : List Sample) : ℕ :=
  (List.range data.length).countP (fun i => isEvaluated cfg data i)

/-- Confusion-matrix cell `pred no / true no` (TN, lines 540/543). -/
def n_predno_trueno (cfg : Config) (data : List Sample) : ℕ :=
  (data.zip (scan cfg data)).countP fun sp => !true_is_spike cfg.buffer sp.1 && !sp.2

/-- Confusion-matrix cell `pred yes / true no` (FP, lines 539/544). -/
def n_predyes_trueno (cfg : Config) (data : List Sample) : ℕ :=
  (data.zip (scan cfg data)).countP fun sp => !true_is_spike cfg.buffer sp.1 && sp.2

/-- Confusion-matrix cell `pred no / true yes` (FN, lines 538/545). -/
def n_predno_trueyes (cfg : Config) (data : List Sample) : ℕ :=
  (data.zip (scan cfg data)).countP fun sp => true_is_spike cfg.buffer sp.1 && !sp.2

/-- Confusion-matrix cell `pred yes / true yes` (TP, lines 541/546). -/
def n_predyes_trueyes (cfg : Config) (data : List Sample) : ℕ :=
  (data.zip (scan cfg data)).countP fun sp => true_is_spike cfg.buffer sp.1 && sp.2

/-- `total` (line 560). -/
def total (cfg : Config) (data : List Sample) : ℕ :=
  n_predno_trueno cfg data + n_predno_trueyes cfg data
    + n_predyes_trueno cfg data + n_predyes_trueyes cfg data

/-- `total_trueyes` (line 561). -/
def total_trueyes (cfg : Config) (data : List Sample) : ℕ :=
  n_predno_trueyes cfg data + n_predyes_trueyes cfg data

/-- `total_trueno` (line 562). -/
def total_trueno (cfg : Config) (data : List Sample) : ℕ :=
  n_predno_trueno cfg data + n_predyes_trueno cfg data

/-- `total_predyes` (line 563). -/
def total_predyes (cfg : Config) (data : List Sample) : ℕ :=
  n_predyes_trueyes cfg data + n_predyes_trueno cfg data

/-- Python's `/` on two counts: raises `ZeroDivisionError` (modelled as
`Except.error ()`) when the divisor is zero. -/
def pydiv (a b : ℚ) : Except Unit ℚ :=
  if b = 0 then Except.error () else Except.ok (a / b)

instance {ε α : Type} [DecidableEq ε] [DecidableEq α] : DecidableEq (Except ε α) := fun a b =>
  match a, b with
  | .error e₁, .error e₂ =>
    if h : e₁ = e₂ then isTrue (by rw [h]) else isFalse (fun hc => h (by injection hc))
  | .ok x, .ok y =>
    if h : x = y then isTrue (by rw [h]) else isFalse (fun hc => h (by injection hc))
  | .error _, .ok _ => isFalse (fun hc => Except.noConfusion hc)
  | .ok _, .error _ => isFalse (fun hc => Except.noConfusion hc)

/-- `accuracy` (line 565). -/
def accuracy (cfg : Config) (data : List Sample) : Except Unit ℚ :=
  pydiv ((n_predno_trueno cfg data + n_predyes_trueyes cfg data : ℕ) : ℚ) (total cfg data)

/-- `precision` (line 566). -/
def precision (cfg : Config) (data : List Sample) : Except Unit ℚ :=
  pydiv ((n_predyes_trueyes cfg data : ℕ) : ℚ) (total_predyes cfg data)

/-- `sensitivity` (line 567). -/
def sensitivity (cfg : Config) (data : List Sample) : Except Unit ℚ :=
  pydiv ((n_predyes_trueyes cfg data : ℕ) : ℚ) (total_trueyes cfg data)

/-- `error_rate` (line 568). -/
def error_rate (cfg : Config) (data : List Sample) : Except Unit ℚ :=
  pydiv ((n_predyes_trueno cfg data + n_predno_trueyes cfg data : ℕ) : ℚ) (total cfg data)

/-- `true_negative_rate` (line 569). -/
def true_negative_rate (cfg : Config) (data : List Sample) : Except Unit ℚ :=
  pydiv ((n_predno_trueno cfg data : ℕ) : ℚ) (total_trueno cfg data)

/-- `false_positive_rate` (line 570). -/
def false_positive_rate (cfg : Config) (data : List Sample) : Except Unit ℚ :=
  pydiv ((n_predyes_trueno cfg data : ℕ) : ℚ) (total_trueno cfg data)

/-- `prevalence` (line 571). -/
def prevalence (cfg : Config) (data : List Sample) : Except Unit ℚ :=
  pydiv ((n_predno_trueyes cfg data + n_predyes_trueyes cfg data : ℕ) : ℚ) (total cfg data)

/-- Modelled from the spec (§4.3): the empirical quantile function — the
smallest bin center whose cumulative probability is ≥ the target, with
fallback `fb` when no bin center qualifies.  Used only to compare the
spec's estimator with the source's interpolating one. -/
def specEmpiricalQuantile (n : ℕ) (vs : List ℚ) (p fb : ℚ) : ℚ :=
  match (List.range n).find? (fun j => p ≤ cdfQ vs n j) with
  | some j => bincenter (outerEdges vs).1 (outerEdges vs).2 n j
  | none => fb

/-- `v` lies between the bin centers bracketing target probability `p`:
at least every center with cumulative probability `< p`, at most some
center with cumulative probability `≥ p`. -/
def bracketed (n : ℕ) (vs : List ℚ) (p v : ℚ) : Prop :=
  (∀ j, j < n → cdfQ vs n j < p →
      bincenter (outerEdges vs).1 (outerEdges vs).2 n j ≤ v) ∧
  (∃ j, j < n ∧ p ≤ cdfQ vs n j ∧
      v ≤ bincenter (outerEdges vs).1 (outerEdges vs).2 n j)

instance (n : ℕ) (vs : List ℚ) (p v : ℚ) : Decidable (bracketed n vs p v) := by
  unfold bracketed; exact instDecidableAnd

/-- Big-step relation of the sequential scan loop: `ScanRel cfg data i L`
holds when the loop, run on `data` under `cfg`, can reach label state `L`
after processing indices `0..i-1`.  One constructor per branch of the loop
body. -/
inductive ScanRel (cfg : Config) (data : List Sample) : ℕ → List Bool → Prop where
  | init : ScanRel cfg data 0 (List.replicate data.length false)
  | warm {i L} : ScanRel cfg data i L → i < cfg.min_entries →
      ScanRel cfg data (i + 1) L
  | skip {i L} : ScanRel cfg data i L → cfg.min_entries ≤ i →
      nValid cfg data i < cfg.min_entries - 1 → ScanRel cfg data (i + 1) L
  | eval {i L} : ScanRel cfg data i L → cfg.min_entries ≤ i →
      ¬ nValid cfg data i < cfg.min_entries - 1 →
      ScanRel cfg data (i + 1) (L.set i (classifyAt cfg data L i))

/-- The `searchsorted` index: how many cdf samples lie strictly below the
target probability. -/
def ssidx (n : ℕ) (vs : List ℚ) (p : ℚ) : ℕ :=
  (List.range n).countP (fun j => cdfQ vs n j < p)

/-- The interpolation segment `interp1d` evaluates on: `ssidx` clipped to
`[1, n-1]`; the segment runs from sample `seg - 1` to sample `seg`. -/
def seg (n : ℕ) (vs : List ℚ) (p : ℚ) : ℕ :=
  min (max (ssidx n vs p) 1) (n - 1)

/-! ## Concrete instances used in counterexamples and witnesses -/

/-- A small configuration (the spec treats `interval`, `min_entries` and
`nbins` as configuration options, §6); quantile targets and buffer are the
source defaults. -/
def smallConfig : Config :=
  { interval := 2, min_entries := 1, nbins := 2,
    p_low := 23 / 100000, p_high := 99977 / 100000, buffer := 15 / 100 }

/-- Configuration for the C1 counterexample. -/
def c1cfg : Config :=
  { interval := 5, min_entries := 3, nbins := 2,
    p_low := 23 / 100000, p_high := 99977 / 100000, buffer := 15 / 100 }

/-- Data whose index 3 is evaluated against the window `[0, 10]`. -/
def c1data : List Sample :=
  [⟨some 0, some 0⟩, ⟨some 10, some 0⟩, ⟨some 0, some 0⟩, ⟨some 1, some 0⟩]

/-- Two rows: index 1 is evaluated with an empty window. -/
def c3data : List Sample := [⟨some 0, some 0⟩, ⟨some 5, some 0⟩]

/-- Three rows giving a run with TN = 1, TP = 2, FP = FN = 0. -/
def c7data : List Sample :=
  [⟨some 0, some 0⟩, ⟨some 5, some 0⟩, ⟨some (1/2), some 5⟩]

/-- 101 identical rows: index 100 is evaluated under the default config. -/
def c2data : List Sample := List.replicate 101 ⟨some 0, some 0⟩

/-- A single row with both values missing. -/
def oneRow : List Sample := [⟨none, none⟩]

/-! ## Basic lemmas -/

lemma foldl_min_le (l : List ℚ) (v : ℚ) : l.foldl min v ≤ v := by
  induction l generalizing v with
  | nil => exact le_refl v
  | cons a l ih => exact le_trans (ih (min v a)) (min_le_left v a)

lemma le_foldl_max (l : List ℚ) (v : ℚ) : v ≤ l.foldl max v := by
  induction l generalizing v with
  | nil => exact le_refl v
  | cons a l ih => exact le_trans (le_max_left v a) (ih (max v a))

/-- The histogram range is always non-degenerate: `lo < hi`. -/
lemma outerEdges_lt (vs : List ℚ) : (outerEdges vs).1 < (outerEdges vs).2 := by
  cases vs with
  | nil => norm_num [outerEdges]
  | cons v rest =>
    simp only [outerEdges]
    split_ifs with h
    · linarith
    · exact lt_of_le_of_ne (le_trans (foldl_min_le rest v) (le_foldl_max rest v)) h

lemma bincenter_mono {lo hi : ℚ} (hlh : lo < hi) {n : ℕ} (hn : 0 < n)
    {j k : ℕ} (hjk : j ≤ k) : bincenter lo hi n j ≤ bincenter lo hi n k := by
  unfold bincenter
  have h1 : (0:ℚ) < 2 * n := by positivity
  have h2 : (2 * (j:ℚ) + 1) ≤ 2 * (k:ℚ) + 1 := by
    have : (j:ℚ) ≤ k := by exact_mod_cast hjk
    linarith
  have h3 : (0:ℚ) ≤ hi - lo := by linarith
  gcongr

lemma cumcount_mono (vs : List ℚ) (n : ℕ) {j k : ℕ} (hjk : j ≤ k) :
    cumcount vs n j ≤ cumcount vs n k := by
  unfold cumcount
  exact List.countP_mono_left fun v _ h => by
    simp only [decide_eq_true_eq] at h ⊢; omega

lemma cdfQ_mono (vs : List ℚ) (n : ℕ) {j k : ℕ} (hjk : j ≤ k) :
    cdfQ vs n j ≤ cdfQ vs n k := by
  unfold cdfQ
  rcases Nat.eq_zero_or_pos vs.length with h | h
  · simp [h]
  · have hl : (0:ℚ) < vs.length := by exact_mod_cast h
    have h2 : ((cumcount vs n j : ℕ) : ℚ) ≤ ((cumcount vs n k : ℕ) : ℚ) := by
      exact_mod_cast cumcount_mono vs n hjk
    exact (div_le_div_iff_of_pos_right hl).mpr h2

/-- A downward-closed predicate on `List.range n` holds exactly on the
initial segment of length `countP`. -/
lemma countP_range_iff (q : ℕ → Bool) (hq : ∀ a b, a ≤ b → q b = true → q a = true)
    (n : ℕ) : ∀ j, j < n → (q j = true ↔ j < (List.range n).countP q) := by
  induction n with
  | zero => intro j hj; omega
  | succ n ih =>
    intro j hj
    rw [List.range_succ, List.countP_append, List.countP_singleton]
    rcases Nat.lt_or_ge j n with hjn | hjn
    · cases hqn : q n with
      | false =>
        simp only [hqn, if_neg Bool.false_ne_true]
        simpa using ih j hjn
      | true =>
        have hall : ∀ a ∈ List.range n, q a := fun a ha => by
          exact hq a n (by simp at ha; omega) hqn
        have : (List.range n).countP q = n := by
          rw [List.countP_eq_length.mpr hall, List.length_range]
        rw [this]
        constructor
        · intro _; omega
        · intro _; exact hq j n (by omega) hqn
    · have hj' : j = n := by omega
      subst hj'
      cases hqn : q j with
      | false =>
        simp only [hqn, if_neg Bool.false_ne_true, Nat.add_zero]
        have hle := List.countP_le_length (p := q) (l := List.range j)
        rw [List.length_range] at hle
        constructor
        · intro h; cases h
        · intro h; omega
      | true =>
        have hall : ∀ a ∈ List.range j, q a := fun a ha => by
          exact hq a j (by simp at ha; omega) hqn
        have hcnt : (List.range j).countP q = j := by
          rw [List.countP_eq_length.mpr hall, List.length_range]
        simp [hcnt, hqn]

/-- `rne` never rounds below the floor. -/
lemma floor_le_rne (x : ℚ) : ⌊x⌋ ≤ rne x := by
  unfold rne; split_ifs <;> omega

/-- `rne` never rounds above the floor plus one. -/
lemma rne_le_floor_add_one (x : ℚ) : rne x ≤ ⌊x⌋ + 1 := by
  unfold rne; split_ifs <;> omega

lemma rne_mono {x y : ℚ} (h : x ≤ y) : rne x ≤ rne y := by
  have hf : ⌊x⌋ ≤ ⌊y⌋ := Int.floor_mono h
  rcases eq_or_lt_of_le hf with he | hlt
  · unfold rne
    rw [← he]
    split_ifs <;> first | omega | linarith
  · calc rne x ≤ ⌊x⌋ + 1 := rne_le_floor_add_one x
      _ ≤ ⌊y⌋ := by omega
      _ ≤ rne y := floor_le_rne y

lemma round3_mono {x y : ℚ} (h : x ≤ y) : round3 x ≤ round3 y := by
  unfold round3
  have : rne (1000 * x) ≤ rne (1000 * y) := rne_mono (by linarith)
  have hc : ((rne (1000 * x) : ℤ) : ℚ) ≤ ((rne (1000 * y) : ℤ) : ℚ) := by exact_mod_cast this
  linarith

/-- Value bounds of one linear-interpolation segment. -/
lemma interp_bounds {xlo xhi cl ch p : ℚ} (hx : xlo < xhi) (hc : cl ≤ ch)
    (hp1 : xlo ≤ p) (hp2 : p ≤ xhi) :
    cl ≤ cl + (p - xlo) * (ch - cl) / (xhi - xlo) ∧
      cl + (p - xlo) * (ch - cl) / (xhi - xlo) ≤ ch := by
  have hw : (0:ℚ) < xhi - xlo := by linarith
  constructor
  · have : (0:ℚ) ≤ (p - xlo) * (ch - cl) / (xhi - xlo) :=
      div_nonneg (mul_nonneg (by linarith) (by linarith)) (by linarith)
    linarith
  · rw [← sub_nonneg]
    have key : (p - xlo) * (ch - cl) / (xhi - xlo) ≤ (ch - cl) := by
      rw [div_le_iff₀ hw]
      nlinarith
    linarith

/-- Monotonicity of one linear-interpolation segment. -/
lemma interp_mono_same {xlo xhi cl ch p₁ p₂ : ℚ} (hx : xlo < xhi) (hc : cl ≤ ch)
    (hp : p₁ ≤ p₂) :
    cl + (p₁ - xlo) * (ch - cl) / (xhi - xlo) ≤
      cl + (p₂ - xlo) * (ch - cl) / (xhi - xlo) := by
  have hw : (0:ℚ) < xhi - xlo := by linarith
  have hnum : (p₁ - xlo) * (ch - cl) ≤ (p₂ - xlo) * (ch - cl) := by nlinarith
  have := (div_le_div_iff_of_pos_right hw).mpr hnum
  linarith

/-! ## Characterisation of the interpolated inverse CDF -/

lemma icdfQ_def' (n : ℕ) (vs : List ℚ) (p : ℚ) :
    icdfQ n vs p =
      if vs.length = 0 then none
      else if p < cdfQ vs n 0 ∨ cdfQ vs n (n - 1) < p then none
      else if cdfQ vs n (seg n vs p) = cdfQ vs n (seg n vs p - 1) then none
      else some (bincenter (outerEdges vs).1 (outerEdges vs).2 n (seg n vs p - 1)
        + (p - cdfQ vs n (seg n vs p - 1))
        * (bincenter (outerEdges vs).1 (outerEdges vs).2 n (seg n vs p)
           - bincenter (outerEdges vs).1 (outerEdges vs).2 n (seg n vs p - 1))
        / (cdfQ vs n (seg n vs p) - cdfQ vs n (seg n vs p - 1))) := rfl

lemma ssidx_iff (n : ℕ) (vs : List ℚ) (p : ℚ) {j : ℕ} (hj : j < n) :
    cdfQ vs n j < p ↔ j < ssidx n vs p := by
  have hdc : ∀ a b, a ≤ b → (decide (cdfQ vs n b < p) = true) →
      (decide (cdfQ vs n a < p) = true) := by
    intro a b hab hb
    simp only [decide_eq_true_eq] at hb ⊢
    exact lt_of_le_of_lt (cdfQ_mono vs n hab) hb
  have := countP_range_iff (fun j => decide (cdfQ vs n j < p)) hdc n j hj
  simpa using this

lemma ssidx_le_sub_one {n : ℕ} {vs : List ℚ} {p : ℚ} (hn : 1 ≤ n)
    (hp : ¬ cdfQ vs n (n - 1) < p) : ssidx n vs p ≤ n - 1 := by
  by_contra hc
  exact hp ((ssidx_iff n vs p (by omega)).mpr (by omega))

/-- Full description of a successful `interp1d` evaluation: the value is the
linear interpolation over the (positive-width) segment around the target. -/
lemma icdfQ_some_spec {n : ℕ} {vs : List ℚ} {p v : ℚ} (hn : 2 ≤ n)
    (h : icdfQ n vs p = some v) :
    vs ≠ [] ∧
    cdfQ vs n 0 ≤ p ∧ p ≤ cdfQ vs n (n - 1) ∧
    1 ≤ seg n vs p ∧ seg n vs p ≤ n - 1 ∧
    cdfQ vs n (seg n vs p - 1) < cdfQ vs n (seg n vs p) ∧
    cdfQ vs n (seg n vs p - 1) ≤ p ∧ p ≤ cdfQ vs n (seg n vs p) ∧
    (∀ j, j < n → cdfQ vs n j < p → j < seg n vs p) ∧
    v = bincenter (outerEdges vs).1 (outerEdges vs).2 n (seg n vs p - 1)
        + (p - cdfQ vs n (seg n vs p - 1))
        * (bincenter (outerEdges vs).1 (outerEdges vs).2 n (seg n vs p)
           - bincenter (outerEdges vs).1 (outerEdges vs).2 n (seg n vs p - 1))
        / (cdfQ vs n (seg n vs p) - cdfQ vs n (seg n vs p - 1)) := by
  rw [icdfQ_def'] at h
  split_ifs at h with h0 h1 h2
  push_neg at h1
  obtain ⟨hp0, hp1⟩ := h1
  have hvs : vs ≠ [] := fun he => h0 (by simp [he])
  have hseg1 : 1 ≤ seg n vs p := by unfold seg; omega
  have hseg2 : seg n vs p ≤ n - 1 := by unfold seg; omega
  have hwle : cdfQ vs n (seg n vs p - 1) ≤ cdfQ vs n (seg n vs p) :=
    cdfQ_mono vs n (by omega)
  have hw : cdfQ vs n (seg n vs p - 1) < cdfQ vs n (seg n vs p) :=
    lt_of_le_of_ne hwle (fun he => h2 he.symm)
  have hsle : ssidx n vs p ≤ n - 1 := ssidx_le_sub_one (by omega) (not_lt.mpr hp1)
  have hlo : cdfQ vs n (seg n vs p - 1) ≤ p := by
    rcases Nat.eq_zero_or_pos (ssidx n vs p) with hz | hpos
    · have hseg : seg n vs p = 1 := by unfold seg; omega
      rw [hseg]
      simpa using hp0
    · have hseg : seg n vs p = ssidx n vs p := by unfold seg; omega
      rw [hseg]
      exact le_of_lt ((ssidx_iff n vs p (by omega)).mpr (by omega))
  have hhi : p ≤ cdfQ vs n (seg n vs p) := by
    rcases Nat.eq_zero_or_pos (ssidx n vs p) with hz | hpos
    · have h00 : ¬ cdfQ vs n 0 < p := fun hc =>
        by have := (ssidx_iff n vs p (by omega)).mp hc; omega
      exact le_trans (not_lt.mp h00) (cdfQ_mono vs n (by omega))
    · have hseg : seg n vs p = ssidx n vs p := by unfold seg; omega
      rw [hseg]
      exact not_lt.mp fun hc =>
        by have := (ssidx_iff n vs p (by omega)).mp hc; omega
  have hall : ∀ j, j < n → cdfQ vs n j < p → j < seg n vs p := by
    intro j hj hc
    have hjs := (ssidx_iff n vs p hj).mp hc
    have hseg : seg n vs p = ssidx n vs p := by unfold seg; omega
    omega
  rw [Option.some.injEq] at h
  exact ⟨hvs, hp0, hp1, hseg1, hseg2, hw, hlo, hhi, hall, h.symm⟩

/-- A successful interpolation lands between the extreme bin centers. -/
lemma icdfQ_some_bounds {n : ℕ} {vs : List ℚ} {p v : ℚ} (hn : 2 ≤ n)
    (h : icdfQ n vs p = some v) :
    bincenter (outerEdges vs).1 (outerEdges vs).2 n 0 ≤ v ∧
      v ≤ bincenter (outerEdges vs).1 (outerEdges vs).2 n (n - 1) := by
  obtain ⟨hvs, hp0, hp1, hseg1, hseg2, hw, hlo, hhi, hall, hv⟩ := icdfQ_some_spec hn h
  have hlh := outerEdges_lt vs
  have hc : bincenter (outerEdges vs).1 (outerEdges vs).2 n (seg n vs p - 1) ≤
      bincenter (outerEdges vs).1 (outerEdges vs).2 n (seg n vs p) :=
    bincenter_mono hlh (by omega) (by omega)
  have hb := interp_bounds hw hc hlo hhi
  rw [hv]
  constructor
  · exact le_trans (bincenter_mono hlh (by omega) (Nat.zero_le _)) hb.1
  · exact le_trans hb.2 (bincenter_mono hlh (by omega) hseg2)

/-- A successful interpolation is bracketed by the bin centers around the
target probability. -/
lemma icdfQ_some_bracketed {n : ℕ} {vs : List ℚ} {p v : ℚ} (hn : 2 ≤ n)
    (h : icdfQ n vs p = some v) : bracketed n vs p v := by
  obtain ⟨hvs, hp0, hp1, hseg1, hseg2, hw, hlo, hhi, hall, hv⟩ := icdfQ_some_spec hn h
  have hlh := outerEdges_lt vs
  have hc : bincenter (outerEdges vs).1 (outerEdges vs).2 n (seg n vs p - 1) ≤
      bincenter (outerEdges vs).1 (outerEdges vs).2 n (seg n vs p) :=
    bincenter_mono hlh (by omega) (by omega)
  have hb := interp_bounds hw hc hlo hhi
  constructor
  · intro j hj hcj
    have hjs := hall j hj hcj
    calc bincenter (outerEdges vs).1 (outerEdges vs).2 n j
        ≤ bincenter (outerEdges vs).1 (outerEdges vs).2 n (seg n vs p - 1) :=
          bincenter_mono hlh (by omega) (by omega)
      _ ≤ v := by rw [hv]; exact hb.1
  · exact ⟨seg n vs p, by omega, hhi, by rw [hv]; exact hb.2⟩

/-- Monotonicity of the interpolated inverse CDF on its domain. -/
lemma icdfQ_mono {n : ℕ} {vs : List ℚ} {p₁ p₂ v₁ v₂ : ℚ} (hn : 2 ≤ n)
    (hp : p₁ ≤ p₂) (h₁ : icdfQ n vs p₁ = some v₁) (h₂ : icdfQ n vs p₂ = some v₂) :
    v₁ ≤ v₂ := by
  obtain ⟨hvs, hp0, hp1, hg1, hg2, hw, hlo, hhi, hall, hv⟩ := icdfQ_some_spec hn h₁
  obtain ⟨hvs', hp0', hp1', hg1', hg2', hw', hlo', hhi', hall', hv'⟩ := icdfQ_some_spec hn h₂
  have hlh := outerEdges_lt vs
  have hcnt : ssidx n vs p₁ ≤ ssidx n vs p₂ :=
    List.countP_mono_left fun j _ hj => by
      simp only [decide_eq_true_eq] at hj ⊢; exact lt_of_lt_of_le hj hp
  have hseg : seg n vs p₁ ≤ seg n vs p₂ := by unfold seg; omega
  rcases eq_or_lt_of_le hseg with he | hlt
  · rw [hv, hv', ← he]
    exact interp_mono_same hw
      (bincenter_mono hlh (by omega) (by omega)) hp
  · have h1up : v₁ ≤ bincenter (outerEdges vs).1 (outerEdges vs).2 n (seg n vs p₁) := by
      rw [hv]
      exact (interp_bounds hw (bincenter_mono hlh (by omega) (by omega)) hlo hhi).2
    have h2lo : bincenter (outerEdges vs).1 (outerEdges vs).2 n (seg n vs p₂ - 1) ≤ v₂ := by
      rw [hv']
      exact (interp_bounds hw' (bincenter_mono hlh (by omega) (by omega)) hlo' hhi').1
    calc v₁ ≤ bincenter (outerEdges vs).1 (outerEdges vs).2 n (seg n vs p₁) := h1up
      _ ≤ bincenter (outerEdges vs).1 (outerEdges vs).2 n (seg n vs p₂ - 1) :=
          bincenter_mono hlh (by omega) (by omega)
      _ ≤ v₂ := h2lo

/-! ## Lemmas about build_histogram -/

lemma build_histogram_eq (cfg : Config) (raws : List (Option ℚ))
    (previous_spikes : List Bool) :
    build_histogram cfg raws previous_spikes =
      (round3 ((icdfQ cfg.nbins (filteredValues raws previous_spikes) cfg.p_low).getD
          (bincenter (outerEdges (filteredValues raws previous_spikes)).1
            (outerEdges (filteredValues raws previous_spikes)).2 cfg.nbins 0))
        - cfg.buffer,
       round3 ((icdfQ cfg.nbins (filteredValues raws previous_spikes) cfg.p_high).getD
          (bincenter (outerEdges (filteredValues raws previous_spikes)).1
            (outerEdges (filteredValues raws previous_spikes)).2 cfg.nbins
            (cfg.nbins - 1)))
        + cfg.buffer) := rfl

lemma icdfQ_nil (n : ℕ) (p : ℚ) : icdfQ n [] p = none := by
  simp [icdfQ]

lemma icdfQ_none_below {n : ℕ} {vs : List ℚ} {p : ℚ} (h : p < cdfQ vs n 0) :
    icdfQ n vs p = none := by
  rw [icdfQ_def']
  rcases Nat.eq_zero_or_pos vs.length with hz | hz
  · rw [if_pos hz]
  · rw [if_neg (by omega), if_pos (Or.inl h)]

lemma icdfQ_none_above {n : ℕ} {vs : List ℚ} {p : ℚ} (h : cdfQ vs n (n - 1) < p) :
    icdfQ n vs p = none := by
  rw [icdfQ_def']
  rcases Nat.eq_zero_or_pos vs.length with hz | hz
  · rw [if_pos hz]
  · rw [if_neg (by omega), if_pos (Or.inr h)]

/-- C5: `lower ≤ upper` for every computed interval, for every non-negative
buffer (with the two quantile targets ordered, as the source's are). -/
theorem c5_theorem (cfg : Config) (raws : List (Option ℚ))
    (previous_spikes : List Bool) (hb : 0 ≤ cfg.buffer) (hn : 2 ≤ cfg.nbins)
    (hp : cfg.p_low ≤ cfg.p_high) :
    (build_histogram cfg raws previous_spikes).1 ≤
      (build_histogram cfg raws previous_spikes).2 := by
  rw [build_histogram_eq]
  have hlh := outerEdges_lt (filteredValues raws previous_spikes)
  have key : (icdfQ cfg.nbins (filteredValues raws previous_spikes) cfg.p_low).getD
        (bincenter (outerEdges (filteredValues raws previous_spikes)).1
          (outerEdges (filteredValues raws previous_spikes)).2 cfg.nbins 0) ≤
      (icdfQ cfg.nbins (filteredValues raws previous_spikes) cfg.p_high).getD
        (bincenter (outerEdges (filteredValues raws previous_spikes)).1
          (outerEdges (filteredValues raws previous_spikes)).2 cfg.nbins
          (cfg.nbins - 1)) := by
    rcases hL : icdfQ cfg.nbins (filteredValues raws previous_spikes) cfg.p_low
        with _ | vL <;>
      rcases hH : icdfQ cfg.nbins (filteredValues raws previous_spikes) cfg.p_high
        with _ | vH
    · simpa using bincenter_mono hlh (by omega) (Nat.zero_le (cfg.nbins - 1))
    · simpa using (icdfQ_some_bounds hn hH).1
    · simpa using (icdfQ_some_bounds hn hL).2
    · simpa using icdfQ_mono hn hp hL hH
  have := round3_mono key
  simp only []
  linarith

/-- C5 witness: the default configuration on a concrete window. -/
theorem c5_witness :
    (build_histogram defaultConfig [some 0, some 10] [false, false]).1 ≤
      (build_histogram defaultConfig [some 0, some 10] [false, false]).2 :=
  c5_theorem defaultConfig [some 0, some 10] [false, false]
    (by decide) (by decide) (by decide)

/-- C1 (corrected): the source computes both bounds by *linear
interpolation* of the inverted CDF, not by the spec's empirical quantile
function.  What does hold: when the target probability lies outside the
achieved cumulative range the bound falls back to the min/max bin center,
and a successful interpolation is bracketed by the bin centers around the
target. -/
theorem c1_theorem (cfg : Config) (raws : List (Option ℚ))
    (previous_spikes : List Bool) (hn : 2 ≤ cfg.nbins) :
    (cdfQ (filteredValues raws previous_spikes) cfg.nbins (cfg.nbins - 1) < cfg.p_high →
      (build_histogram cfg raws previous_spikes).2 =
        round3 (bincenter (outerEdges (filteredValues raws previous_spikes)).1
          (outerEdges (filteredValues raws previous_spikes)).2 cfg.nbins (cfg.nbins - 1))
          + cfg.buffer) ∧
    (cfg.p_low < cdfQ (filteredValues raws previous_spikes) cfg.nbins 0 →
      (build_histogram cfg raws previous_spikes).1 =
        round3 (bincenter (outerEdges (filteredValues raws previous_spikes)).1
          (outerEdges (filteredValues raws previous_spikes)).2 cfg.nbins 0)
          - cfg.buffer) ∧
    (∀ v, icdfQ cfg.nbins (filteredValues raws previous_spikes) cfg.p_low = some v →
      (build_histogram cfg raws previous_spikes).1 = round3 v - cfg.buffer ∧
        bracketed cfg.nbins (filteredValues raws previous_spikes) cfg.p_low v) ∧
    (∀ v, icdfQ cfg.nbins (filteredValues raws previous_spikes) cfg.p_high = some v →
      (build_histogram cfg raws previous_spikes).2 = round3 v + cfg.buffer ∧
        bracketed cfg.nbins (filteredValues raws previous_spikes) cfg.p_high v) := by
  refine ⟨?_, ?_, ?_, ?_⟩
  · intro h
    rw [build_histogram_eq]
    simp only [icdfQ_none_above h, Option.getD_none]
  · intro h
    rw [build_histogram_eq]
    simp only [icdfQ_none_below h, Option.getD_none]
  · intro v hv
    constructor
    · rw [build_histogram_eq]
      simp only [hv, Option.getD_some]
    · exact icdfQ_some_bracketed hn hv
  · intro v hv
    constructor
    · rw [build_histogram_eq]
      simp only [hv, Option.getD_some]
    · exact icdfQ_some_bracketed hn hv

/-- C1 counterexample: at the evaluated index 3 of a concrete run the
window values are `[0, 10]`; the code's upper bound is `7.648`
(interpolation gives `7.4977`), while the claim's empirical-quantile upper
bound is `7.65` (smallest qualifying bin center `7.5`). -/
theorem c1_counterexample :
    isEvaluated c1cfg c1data 3 = true ∧
    filteredValues (windowRaws c1cfg c1data 3)
        (windowPrev c1cfg (scan c1cfg c1data) 3) = [0, 10] ∧
    (intervalAt c1cfg c1data (scan c1cfg c1data) 3).2 = 7648 / 1000 ∧
    round3 (specEmpiricalQuantile c1cfg.nbins [0, 10] c1cfg.p_high
      (bincenter (outerEdges [0, 10]).1 (outerEdges [0, 10]).2 c1cfg.nbins
        (c1cfg.nbins - 1))) + c1cfg.buffer = 7650 / 1000 := by
  decide

/-- C1 witness: the interpolation branch of `c1_theorem` at the window
`[0, 10]`, where `interp1d` yields `7.4977`. -/
theorem c1_witness :
    (build_histogram c1cfg [some 0, some 10] [false, false]).2
        = round3 (74977 / 10000) + c1cfg.buffer ∧
      bracketed c1cfg.nbins (filteredValues [some 0, some 10] [false, false])
        c1cfg.p_high (74977 / 10000) :=
  (c1_theorem c1cfg [some 0, some 10] [false, false] (by decide)).2.2.2
    (74977 / 10000) (by decide)

/-- C3 (corrected): when filtering leaves zero values the Builder does not
skip; `numpy.histogram` falls back to the default range `(0, 1)`, the
interpolation is NaN, and both bounds fall back to the extreme bin centers
of that default range. -/
theorem c3_theorem (cfg : Config) (raws : List (Option ℚ))
    (previous_spikes : List Bool) (hn : 1 ≤ cfg.nbins)
    (he : filteredValues raws previous_spikes = []) :
    build_histogram cfg raws previous_spikes =
      (round3 (1 / (2 * cfg.nbins)) - cfg.buffer,
       round3 ((2 * (cfg.nbins : ℚ) - 1) / (2 * cfg.nbins)) + cfg.buffer) := by
  rw [build_histogram_eq, he]
  rw [icdfQ_nil, icdfQ_nil]
  simp only [Option.getD_none]
  have h1 : bincenter (outerEdges []).1 (outerEdges []).2 cfg.nbins 0
      = 1 / (2 * cfg.nbins) := by
    simp [outerEdges, bincenter]
  have h2 : bincenter (outerEdges []).1 (outerEdges []).2 cfg.nbins (cfg.nbins - 1)
      = (2 * (cfg.nbins : ℚ) - 1) / (2 * cfg.nbins) := by
    have hc : ((cfg.nbins - 1 : ℕ) : ℚ) = (cfg.nbins : ℚ) - 1 := by
      push_cast [Nat.cast_sub hn]
      ring
    simp only [outerEdges, bincenter, hc]
    ring
  rw [h1, h2]

/-- C3 counterexample: index 1 of this run is evaluated, its filtered
window is empty, and the written label is `True` (the point `5` lies
outside the default-range interval `(0.1, 0.9)`), not `False`. -/
theorem c3_counterexample :
    isEvaluated smallConfig c3data 1 = true ∧
    filteredValues (windowRaws smallConfig c3data 1)
        (windowPrev smallConfig (scan smallConfig c3data) 1) = [] ∧
    scan smallConfig c3data = [false, true] := by
  decide

/-- C3 witness: the degenerate interval under the default configuration is
`(round3 (1/160) - 0.15, round3 (159/160) + 0.15) = (-0.144, 1.144)`. -/
theorem c3_witness :
    build_histogram defaultConfig [] [] =
      (round3 (1 / (2 * defaultConfig.nbins)) - defaultConfig.buffer,
       round3 ((2 * (defaultConfig.nbins : ℚ) - 1) / (2 * defaultConfig.nbins))
         + defaultConfig.buffer) :=
  c3_theorem defaultConfig [] [] (by decide) rfl

/-! ## Lemmas about the scan -/

lemma scanUpto_succ (cfg : Config) (data : List Sample) (k : ℕ) :
    scanUpto cfg data (k + 1) = scanStep cfg data (scanUpto cfg data k) k := by
  unfold scanUpto
  rw [List.range_succ, List.foldl_append, List.foldl_cons, List.foldl_nil]

lemma length_scanStep (cfg : Config) (data : List Sample) (labels : List Bool) (i : ℕ) :
    (scanStep cfg data labels i).length = labels.length := by
  unfold scanStep
  split_ifs <;> simp

lemma length_scanUpto (cfg : Config) (data : List Sample) (k : ℕ) :
    (scanUpto cfg data k).length = data.length := by
  induction k with
  | zero => simp [scanUpto]
  | succ k ih => rw [scanUpto_succ, length_scanStep, ih]

/-- A step at index `i` leaves every other position unchanged. -/
lemma scanStep_getElem_ne (cfg : Config) (data : List Sample) (labels : List Bool)
    (i j : ℕ) (hij : j ≠ i) : (scanStep cfg data labels i)[j]? = labels[j]? := by
  unfold scanStep
  split_ifs <;> simp [List.getElem?_set_ne (Ne.symm hij)]

/-- Labels below index `i` are final once the loop has passed `i`. -/
lemma scanUpto_stable (cfg : Config) (data : List Sample) {i k j : ℕ}
    (hik : i ≤ k) (hj : j < i) :
    (scanUpto cfg data k)[j]? = (scanUpto cfg data i)[j]? := by
  induction k with
  | zero =>
    have : i = 0 := by omega
    rw [this]
  | succ k ih =>
    rcases Nat.lt_or_ge i (k + 1) with h | h
    · rw [scanUpto_succ, scanStep_getElem_ne cfg data _ k j (by omega), ih (by omega)]
    · have : i = k + 1 := by omega
      rw [this]

/-- No step ever writes into the warm-up region. -/
lemma scanUpto_warm (cfg : Config) (data : List Sample) {j : ℕ}
    (hj : j < cfg.min_entries) (k : ℕ) :
    (scanUpto cfg data k)[j]? = (List.replicate data.length false)[j]? := by
  induction k with
  | zero => rfl
  | succ k ih =>
    rw [scanUpto_succ]
    rcases Nat.lt_or_ge k cfg.min_entries with hk | hk
    · have hstep : scanStep cfg data (scanUpto cfg data k) k = scanUpto cfg data k := by
        unfold scanStep
        rw [if_pos hk]
      rw [hstep]
      exact ih
    · rw [scanStep_getElem_ne cfg data _ k j (by omega)]
      exact ih

/-- The step taken at an evaluated index. -/
lemma scanUpto_eval (cfg : Config) (data : List Sample) {i : ℕ}
    (h1 : cfg.min_entries ≤ i) (h3 : ¬ nValid cfg data i < cfg.min_entries - 1) :
    scanUpto cfg data (i + 1) =
      (scanUpto cfg data i).set i (classifyAt cfg data (scanUpto cfg data i) i) := by
  rw [scanUpto_succ]
  unfold scanStep
  rw [if_neg (by omega), if_neg h3]

/-- The label slice a window reads is already final: reading it from the
finished scan equals reading it at processing time. -/
lemma windowPrev_scan_eq (cfg : Config) (data : List Sample) {i : ℕ}
    (hi : i ≤ data.length) :
    windowPrev cfg (scan cfg data) i = windowPrev cfg (scanUpto cfg data i) i := by
  unfold windowPrev
  apply List.ext_getElem?
  intro j
  rw [List.getElem?_take, List.getElem?_take]
  split_ifs with hj
  · rw [List.getElem?_drop, List.getElem?_drop]
    unfold scan
    exact scanUpto_stable cfg data hi (by omega)
  · rfl

lemma intervalAt_scan_eq (cfg : Config) (data : List Sample) {i : ℕ}
    (hi : i ≤ data.length) :
    intervalAt cfg data (scan cfg data) i = intervalAt cfg data (scanUpto cfg data i) i := by
  unfold intervalAt
  rw [windowPrev_scan_eq cfg data hi]

lemma classifyAt_scan_eq (cfg : Config) (data : List Sample) {i : ℕ}
    (hi : i ≤ data.length) :
    classifyAt cfg data (scan cfg data) i = classifyAt cfg data (scanUpto cfg data i) i := by
  unfold classifyAt
  rw [intervalAt_scan_eq cfg data hi]

/-- C4 (confirmed): at every evaluated index, a `NaN` candidate is labelled
`False`, otherwise the label is `True` iff the candidate lies strictly
outside the computed interval. -/
theorem c4_theorem (cfg : Config) (data : List Sample) {i : ℕ}
    (h1 : cfg.min_entries ≤ i) (h2 : i < data.length)
    (h3 : ¬ nValid cfg data i < cfg.min_entries - 1) :
    (scan cfg data)[i]? =
      some (match (data.get ⟨i, h2⟩).raw with
        | none => false
        | some r =>
          decide (r < (intervalAt cfg data (scan cfg data) i).1 ∨
            (intervalAt cfg data (scan cfg data) i).2 < r)) := by
  calc (scan cfg data)[i]?
      = (scanUpto cfg data (i + 1))[i]? := by
        unfold scan
        exact scanUpto_stable cfg data (by omega) (by omega)
    _ = some (classifyAt cfg data (scanUpto cfg data i) i) := by
        rw [scanUpto_eval cfg data h1 h3]
        exact List.getElem?_set_self (by rw [length_scanUpto]; exact h2)
    _ = some (classifyAt cfg data (scan cfg data) i) := by
        rw [classifyAt_scan_eq cfg data (le_of_lt h2)]
    _ = _ := by
        unfold classifyAt
        rw [List.getElem?_eq_getElem h2]
        rfl

/-- C4 witness: the evaluated index 1 of a concrete run. -/
theorem c4_witness :
    (scan smallConfig c3data)[1]? =
      some (match (c3data.get ⟨1, by decide⟩).raw with
        | none => false
        | some r =>
          decide (r < (intervalAt smallConfig c3data (scan smallConfig c3data) 1).1 ∨
            (intervalAt smallConfig c3data (scan smallConfig c3data) 1).2 < r)) :=
  c4_theorem smallConfig c3data (by decide) (by decide) (by decide)

/-- C2 (corrected): the window handed to the Distribution Builder holds the
samples at indices `max(0, i-interval)` through `i-2` inclusive — the
Python slice `iloc[max(0,i-interval) : i-1]` excludes its end, so `i-1` is
not part of it. -/
theorem c2_theorem (cfg : Config) (data : List Sample) (i : ℕ) (j : ℕ) :
    (windowRaws cfg data i)[j]? =
      if j < (i - 1) - (i - cfg.interval)
      then (data[(i - cfg.interval) + j]?).map Sample.raw
      else none := by
  unfold windowRaws
  rw [List.getElem?_map, List.getElem?_take]
  split_ifs with hj
  · rw [List.getElem?_drop]
  · rfl

set_option maxRecDepth 4000 in
/-- C2 counterexample: under the default configuration, index 100 of a
101-row run is evaluated and its window has 99 samples (indices 0..98) —
the claim's window `[max(0, 100-240), 99]` would have 100. -/
theorem c2_counterexample :
    isEvaluated defaultConfig c2data 100 = true ∧
    100 < c2data.length ∧
    (windowRaws defaultConfig c2data 100).length = 99 := by
  decide

/-- C8 (confirmed): warm-up indices are never evaluated and keep the
default `False` label. -/
theorem c8_theorem (cfg : Config) (data : List Sample) {i : ℕ}
    (h1 : i < cfg.min_entries) (h2 : i < data.length) :
    isEvaluated cfg data i = false ∧ (scan cfg data)[i]? = some false := by
  constructor
  · simp [isEvaluated, Nat.not_le.mpr h1]
  · unfold scan
    rw [scanUpto_warm cfg data h1 data.length, List.getElem?_replicate_of_lt h2]

/-- C8 witness. -/
theorem c8_witness :
    isEvaluated defaultConfig oneRow 0 = false ∧
      (scan defaultConfig oneRow)[0]? = some false :=
  c8_theorem defaultConfig oneRow (by decide) (by decide)

/-- Every run of the loop relation ends in the label array the scan
function computes. -/
lemma scanRel_eq_scanUpto (cfg : Config) (data : List Sample) :
    ∀ {i : ℕ} {L : List Bool}, ScanRel cfg data i L → L = scanUpto cfg data i := by
  intro i L h
  induction h with
  | init => rfl
  | warm h hw ih =>
    rw [scanUpto_succ]
    unfold scanStep
    rw [if_pos hw]
    exact ih
  | skip h hm hs ih =>
    rw [scanUpto_succ]
    unfold scanStep
    rw [if_neg (by omega), if_pos hs]
    exact ih
  | eval h hm hs ih =>
    rw [scanUpto_succ]
    unfold scanStep
    rw [if_neg (by omega), if_neg hs, ih]

/-- C9 (confirmed): any complete run of the Sequential Scanner on the same
data and configuration produces the one label array `scan cfg data`: the
output is a deterministic function of input and configuration only. -/
theorem c9_theorem (cfg : Config) (data : List Sample) (L : List Bool)
    (h : ScanRel cfg data data.length L) : L = scan cfg data :=
  scanRel_eq_scanUpto cfg data h

/-- C9 witness: a one-row run (one warm-up step). -/
theorem c9_witness : List.replicate oneRow.length false = scan defaultConfig oneRow :=
  c9_theorem defaultConfig oneRow _ (ScanRel.warm ScanRel.init (by decide))

/-! ## Confusion matrix and metrics -/

lemma countP_and_split {α : Type} (l : List α) (p q : α → Bool) :
    l.countP (fun a => p a && q a) + l.countP (fun a => p a && !q a) = l.countP p := by
  induction l with
  | nil => rfl
  | cons a l ih =>
    simp only [List.countP_cons]
    cases hp : p a <;> cases hq : q a <;> simp [hp, hq] <;> omega

lemma countP_add_countP_not {α : Type} (l : List α) (q : α → Bool) :
    l.countP q + l.countP (fun a => !q a) = l.length := by
  induction l with
  | nil => rfl
  | cons a l ih =>
    simp only [List.countP_cons, List.length_cons]
    cases hq : q a <;> simp [hq] <;> omega

lemma countP_zip_fst {α β : Type} (l₁ : List α) (l₂ : List β)
    (h : l₁.length = l₂.length) (p : α → Bool) :
    (l₁.zip l₂).countP (fun ab => p ab.1) = l₁.countP p := by
  induction l₁ generalizing l₂ with
  | nil => simp
  | cons a l ih =>
    cases l₂ with
    | nil => simp at h
    | cons b l₂ =>
      simp only [List.zip_cons_cons, List.countP_cons]
      rw [ih l₂ (by simpa using h)]

/-- C6 (corrected): the four confusion-matrix cells are computed over *all*
rows (warm-up and skipped rows enter with `pred_is_spike = False`), so they
sum to the number of rows, not to the number of evaluated points. -/
theorem c6_theorem (cfg : Config) (data : List Sample) :
    n_predno_trueno cfg data + n_predyes_trueno cfg data + n_predno_trueyes cfg data
      + n_predyes_trueyes cfg data = data.length := by
  have e1 := countP_and_split (data.zip (scan cfg data))
      (fun sp => !true_is_spike cfg.buffer sp.1) (fun sp => sp.2)
  have e2 := countP_and_split (data.zip (scan cfg data))
      (fun sp => true_is_spike cfg.buffer sp.1) (fun sp => sp.2)
  have e3 := countP_add_countP_not (data.zip (scan cfg data))
      (fun sp => true_is_spike cfg.buffer sp.1)
  have e4 : (data.zip (scan cfg data)).length = data.length := by
    rw [List.length_zip]
    unfold scan
    rw [length_scanUpto]
    exact min_self _
  unfold n_predno_trueno n_predyes_trueno n_predno_trueyes n_predyes_trueyes
  omega

/-- C6 counterexample: a single-row run has no evaluated point, yet the
four cells sum to 1. -/
theorem c6_counterexample :
    n_predno_trueno defaultConfig oneRow + n_predyes_trueno defaultConfig oneRow
        + n_predno_trueyes defaultConfig oneRow + n_predyes_trueyes defaultConfig oneRow
      = 1 ∧
    evaluatedCount defaultConfig oneRow = 0 := by
  decide

/-- C7 counterexample: on a run that predicts no spike, `precision`
divides by `total_predyes = 0` and raises (`ZeroDivisionError`). -/
theorem c7_counterexample : precision defaultConfig oneRow = Except.error () := by
  decide

/-- C7 (corrected): the scan itself signals no error, but the Evaluator's
divisions are unguarded; whenever every denominator is non-zero the seven
metrics are computed exactly by the §4.6 formulas. -/
theorem c7_theorem (cfg : Config) (data : List Sample)
    (h1 : total cfg data ≠ 0) (h2 : total_predyes cfg data ≠ 0)
    (h3 : total_trueyes cfg data ≠ 0) (h4 : total_trueno cfg data ≠ 0) :
    accuracy cfg data = Except.ok
        (((n_predno_trueno cfg data + n_predyes_trueyes cfg data : ℕ) : ℚ)
          / ((total cfg data : ℕ) : ℚ)) ∧
    precision cfg data = Except.ok
        (((n_predyes_trueyes cfg data : ℕ) : ℚ) / ((total_predyes cfg data : ℕ) : ℚ)) ∧
    sensitivity cfg data = Except.ok
        (((n_predyes_trueyes cfg data : ℕ) : ℚ) / ((total_trueyes cfg data : ℕ) : ℚ)) ∧
    error_rate cfg data = Except.ok
        (((n_predyes_trueno cfg data + n_predno_trueyes cfg data : ℕ) : ℚ)
          / ((total cfg data : ℕ) : ℚ)) ∧
    true_negative_rate cfg data = Except.ok
        (((n_predno_trueno cfg data : ℕ) : ℚ) / ((total_trueno cfg data : ℕ) : ℚ)) ∧
    false_positive_rate cfg data = Except.ok
        (((n_predyes_trueno cfg data : ℕ) : ℚ) / ((total_trueno cfg data : ℕ) : ℚ)) ∧
    prevalence cfg data = Except.ok
        (((n_predno_trueyes cfg data + n_predyes_trueyes cfg data : ℕ) : ℚ)
          / ((total cfg data : ℕ) : ℚ)) := by
  have q1 : ((total cfg data : ℕ) : ℚ) ≠ 0 := Nat.cast_ne_zero.mpr h1
  have q2 : ((total_predyes cfg data : ℕ) : ℚ) ≠ 0 := Nat.cast_ne_zero.mpr h2
  have q3 : ((total_trueyes cfg data : ℕ) : ℚ) ≠ 0 := Nat.cast_ne_zero.mpr h3
  have q4 : ((total_trueno cfg data : ℕ) : ℚ) ≠ 0 := Nat.cast_ne_zero.mpr h4
  refine ⟨?_, ?_, ?_, ?_, ?_, ?_, ?_⟩
  · unfold accuracy pydiv
    rw [if_neg q1]
  · unfold precision pydiv
    rw [if_neg q2]
  · unfold sensitivity pydiv
    rw [if_neg q3]
  · unfold error_rate pydiv
    rw [if_neg q1]
  · unfold true_negative_rate pydiv
    rw [if_neg q4]
  · unfold false_positive_rate pydiv
    rw [if_neg q4]
  · unfold prevalence pydiv
    rw [if_neg q1]

/-- C7 witness: a run with TN = 1, TP = 2, FP = FN = 0, where every
denominator is non-zero. -/
theorem c7_witness :
    accuracy smallConfig c7data = Except.ok
        (((n_predno_trueno smallConfig c7data + n_predyes_trueyes smallConfig c7data : ℕ) : ℚ)
          / ((total smallConfig c7data : ℕ) : ℚ)) ∧
    precision smallConfig c7data = Except.ok
        (((n_predyes_trueyes smallConfig c7data : ℕ) : ℚ)
          / ((total_predyes smallConfig c7data : ℕ) : ℚ)) ∧
    sensitivity smallConfig c7data = Except.ok
        (((n_predyes_trueyes smallConfig c7data : ℕ) : ℚ)
          / ((total_trueyes smallConfig c7data : ℕ) : ℚ)) ∧
    error_rate smallConfig c7data = Except.ok
        (((n_predyes_trueno smallConfig c7data + n_predno_trueyes smallConfig c7data : ℕ) : ℚ)
          / ((total smallConfig c7data : ℕ) : ℚ)) ∧
    true_negative_rate smallConfig c7data = Except.ok
        (((n_predno_trueno smallConfig c7data : ℕ) : ℚ)
          / ((total_trueno smallConfig c7data : ℕ) : ℚ)) ∧
    false_positive_rate smallConfig c7data = Except.ok
        (((n_predyes_trueno smallConfig c7data : ℕ) : ℚ)
          / ((total_trueno smallConfig c7data : ℕ) : ℚ)) ∧
    prevalence smallConfig c7data = Except.ok
        (((n_predno_trueyes smallConfig c7data + n_predyes_trueyes smallConfig c7data : ℕ) : ℚ)
          / ((total smallConfig c7data : ℕ) : ℚ)) :=
  c7_theorem smallConfig c7data (by decide) (by decide) (by decide) (by decide)

/-- C10 (confirmed): a row with a missing `raw` or `accepted` has
`true_is_spike = False` (a `NaN` comparison is false), and the `TN` and
`FP` cells together count exactly the ground-truth-negative rows, so such
rows are always counted as ground-truth negatives. -/
theorem c10_theorem (cfg : Config) (data : List Sample) :
    (∀ s : Sample, delta s = none → true_is_spike cfg.buffer s = false) ∧
    n_predno_trueno cfg data + n_predyes_trueno cfg data =
      data.countP (fun s => !true_is_spike cfg.buffer s) := by
  constructor
  · intro s hs
    unfold true_is_spike
    rw [hs]
  · unfold n_predno_trueno n_predyes_trueno
    have e1 := countP_and_split (data.zip (scan cfg data))
        (fun sp => !true_is_spike cfg.buffer sp.1) (fun sp => sp.2)
    have e2 := countP_zip_fst data (scan cfg data)
        (length_scanUpto cfg data data.length).symm
        (fun s => !true_is_spike cfg.buffer s)
    omega

/-- C10 witness: a row with missing `raw`. -/
theorem c10_witness :
    true_is_spike defaultConfig.buffer ⟨none, some 1⟩ = false ∧
    n_predno_trueno defaultConfig oneRow + n_predyes_trueno defaultConfig oneRow =
      oneRow.countP (fun s => !true_is_spike defaultConfig.buffer s) :=
  ⟨(c10_theorem defaultConfig oneRow).1 ⟨none, some 1⟩ rfl,
    (c10_theorem defaultConfig oneRow).2⟩

end IdentifySpikes
